import Mathlib

/-!
Shallow embedding of `src/fed_rf_mk/utils.py` (the `fed_rf` repository's
utility module) and proofs about it.  Python strings become `String`,
Python dicts (which iterate in insertion order) become association lists,
`IndexError`/`NameError` become `Except String` results, the filesystem
and `io.BytesIO` buffers become explicit state records threaded through
the functions.
-/

namespace FedRF

/-- Python `str.replace(c, rep)` for a single-character pattern, over the
character list of a string: every occurrence of `c` is replaced by the
(possibly empty) character list `rep`. -/
def replaceChar (c : Char) (rep : List Char) : List Char → List Char
  | [] => []
  | x :: xs => (if x = c then rep else [x]) ++ replaceChar c rep xs

/-- `get_model_file` from `utils.py`:
`f-string of datasite_name.replace(dot, empty).replace(space, underscore).lower()`
followed by `_model.jbl`. -/
def get_model_file (datasite_name : String) : String :=
  String.mk ((replaceChar ' ' ['_'] (replaceChar '.' [] datasite_name.data)).map Char.toLower)
    ++ "_model.jbl"

/-- The spec's description of the model filename, as amended: strip (remove)
all dots, replace each space by an underscore, lowercase the result, then
append the fixed suffix. -/
def modelFilename_spec (name : String) : String :=
  String.mk ((((name.data.filter (fun c => c != '.')).map
      (fun c => if c = ' ' then '_' else c)).map Char.toLower))
    ++ "_model.jbl"

/-- The status object of a syft code request: an `approved` flag and the
status message returned by `get_status_message`. -/
structure RequestStatus where
  approved : Bool
  message : String
  deriving DecidableEq

/-- A syft `DatasiteClient`, reduced to what `utils.py` touches: its list
`code` of submitted code requests (`code[-1]` is the most recent). -/
structure DatasiteClient where
  code : List RequestStatus
  deriving DecidableEq

/-- A `dict[str, DatasiteClient]` in Python iteration (insertion) order. -/
abbrev Datasites := List (String × DatasiteClient)

/-- `check_status_last_code_requests`: for each datasite in order, display
the status message of `code[-1]`.  `code[-1]` on an empty list raises
`IndexError`, which propagates; the displayed messages are collected. -/
def check_status_last_code_requests : Datasites → Except String (List (String × String))
  | [] => .ok []
  | p :: rest =>
    match p.2.code.getLast? with
    | none => .error "IndexError"
    | some r =>
      match check_status_last_code_requests rest with
      | .error e => .error e
      | .ok rs => .ok ((p.1, r.message) :: rs)

/-- Transition the last request of a request list to approved
(`datasite.code[-1].status.approve()`); `none` models the `IndexError`
raised by `code[-1]` on an empty list. -/
def setLastApproved : List RequestStatus → Option (List RequestStatus)
  | [] => none
  | [r] => some [{ r with approved := true }]
  | r :: r2 :: rs => (setLastApproved (r2 :: rs)).map (r :: ·)

/-- `approve_last_code_requests`: for each datasite in order, approve its
most recent code request; an `IndexError` from an empty `code` list
propagates. -/
def approve_last_code_requests : Datasites → Except String Datasites
  | [] => .ok []
  | p :: rest =>
    match setLastApproved p.2.code with
    | none => .error "IndexError"
    | some c =>
      match approve_last_code_requests rest with
      | .error e => .error e
      | .ok rs => .ok ((p.1, ⟨c⟩) :: rs)

/-- `requests_accepted`: the list comprehension
`[dsite.code[-1].status.approved for dsite in datasites.values()]`.
A pure read; `code[-1]` on an empty list raises `IndexError`. -/
def requests_accepted : Datasites → Except String (List Bool)
  | [] => .ok []
  | p :: rest =>
    match p.2.code.getLast? with
    | none => .error "IndexError"
    | some r =>
      match requests_accepted rest with
      | .error e => .error e
      | .ok rs => .ok (r.approved :: rs)

/-- An on-disk state: the set of existing directories and a map from file
paths to byte contents (bytes as naturals). -/
structure FileSystem where
  dirs : List String
  files : List (String × List Nat)
  deriving DecidableEq

/-- `Path(root).mkdir(exist_ok=True)`: create the directory if absent, no
error (and no change) if it already exists. -/
def mkdirExistOk (fs : FileSystem) (d : String) : FileSystem :=
  if d ∈ fs.dirs then fs else ⟨d :: fs.dirs, fs.files⟩

/-- `open(filepath, "wb")` followed by a write: store `bytes` at `path`,
silently overwriting any previous contents. -/
def fsWrite (fs : FileSystem) (path : String) (bytes : List Nat) : FileSystem :=
  ⟨fs.dirs, (path, bytes) :: fs.files.filter (fun e => !(e.1 == path))⟩

/-- `open(path, "rb")` followed by a full read; `none` when no file exists
at `path`. -/
def fsRead (fs : FileSystem) (path : String) : Option (List Nat) :=
  (fs.files.find? (fun e => e.1 == path)).map (·.2)

/-- Models Python `io.BytesIO`: the full backing byte array together with
the current stream position. -/
structure ByteBuffer where
  data : List Nat
  pos : Nat
  deriving DecidableEq

/-- `BytesIO.getbuffer()`: the entire underlying contents, independent of
the current position; does not move the position or mutate the buffer. -/
def getbuffer (b : ByteBuffer) : List Nat := b.data

/-- `BytesIO.seek(p)`: set the stream position. -/
def seek (b : ByteBuffer) (p : Nat) : ByteBuffer := { b with pos := p }

/-- A write to a `BytesIO` at the current position (as `joblib.dump` does):
overwrites from `pos` and advances the position past the written bytes. -/
def bufWrite (b : ByteBuffer) (bs : List Nat) : ByteBuffer :=
  ⟨b.data.take b.pos ++ bs ++ b.data.drop (b.pos + bs.length), b.pos + bs.length⟩

/-- A read from the current position to the end of a `BytesIO` (as
`joblib.load` does), leaving the position at the end. -/
def readToEnd (b : ByteBuffer) : List Nat × ByteBuffer :=
  (b.data.drop b.pos, { b with pos := b.data.length })

/-- Modelled from the spec: a scikit-learn estimator (external to `src/`),
reduced to its learned parameters, which fully determine its predictions. -/
structure BaseEstimator where
  params : List Nat
  deriving DecidableEq

/-- Modelled from the spec: the deterministic predictions of an estimator
on an input batch. -/
def predict (m : BaseEstimator) (x : List Nat) : List Nat :=
  x.map (fun v => v + m.params.sum)

/-- Modelled from the spec: the byte encoding `joblib.dump` produces for an
estimator (joblib is an external library; the encoding is injective and
`joblibLoadBytes` inverts it, which is joblib's documented contract). -/
def joblibDumpBytes (m : BaseEstimator) : List Nat := m.params

/-- Modelled from the spec: `joblib.load` decoding of a byte stream. -/
def joblibLoadBytes (bs : List Nat) : BaseEstimator := ⟨bs⟩

/-- The serialisation step of `serialize_and_upload`: dump the model with
joblib into a fresh `BytesIO` buffer, then `seek(0)`. -/
def serialize (model : BaseEstimator) : ByteBuffer :=
  seek (bufWrite ⟨[], 0⟩ (joblibDumpBytes model)) 0

/-- `dump_model` from `utils.py`.  `root` defaults to `"./models"` in the
source; here it is an explicit argument.  The filesystem is threaded
explicitly.  The source only calls the non-mutating `getbuffer()` on the
buffer, so the embedding returns the buffer unchanged alongside the new
filesystem and the confirmation string. -/
def dump_model (datasite_name : String) (model_buffer : ByteBuffer) (root : String)
    (fs : FileSystem) : FileSystem × String × ByteBuffer :=
  let model_folder := mkdirExistOk fs root
  let filepath := root ++ "/" ++ get_model_file datasite_name
  let fs2 := fsWrite model_folder filepath (getbuffer model_buffer)
  (fs2, "Model saved in " ++ filepath, model_buffer)

/-- `load_model` from `utils.py`: open the file and `joblib.load` it;
`none` when the file does not exist. -/
def load_model (fs : FileSystem) (model_filepath : String) : Option BaseEstimator :=
  (fsRead fs model_filepath).map joblibLoadBytes

/-- `load_model_from_buffer` from `utils.py`: `seek(0)` then `joblib.load`
from the buffer; returns the loaded estimator together with the buffer as
it is left after the read. -/
def load_model_from_buffer (model_buffer : ByteBuffer) : BaseEstimator × ByteBuffer :=
  let r := readToEnd (seek model_buffer 0)
  (joblibLoadBytes r.1, r.2)

/-- A confusion matrix, as the raw counts handed to
`ConfusionMatrixDisplay`. -/
abbrev ConfusionMatrix := List (List Nat)

/-- `itertools.product(range(2), repeat=2)`: the 2x2 grid coordinates in
row-major order. -/
def gridCoords : List (Nat × Nat) := [(0, 0), (0, 1), (1, 0), (1, 1)]

/-- The figure `plot_all_confusion_matrices` builds: which grid cells were
drawn into, each with the title of the matrix placed there. -/
structure Figure where
  cells : List ((Nat × Nat) × String)
  deriving DecidableEq

/-- `plot_all_confusion_matrices` from `utils.py`:
`zip(product(range(2), repeat=2), cms.items())` truncates to the shorter
of the four grid cells and the supplied matrices, so at most four matrices
are drawn and fewer than four fill only the leading cells.  After the
loop, `fig.colorbar(disp.im_, ax=axes)` reads the loop variable `disp`,
which is unbound when the loop never ran: an empty mapping raises
`NameError`. -/
def plot_all_confusion_matrices (cms : List (String × ConfusionMatrix)) :
    Except String Figure :=
  let placed := gridCoords.zip cms
  if placed.isEmpty then .error "NameError"
  else .ok ⟨placed.map (fun e => (e.1, e.2.1))⟩

/-- One per-epoch metrics record; `utils.py` reads only its `accuracy`. -/
structure Metric where
  accuracy : ℚ
  deriving DecidableEq

/-- The figure `plot_fl_metrics` builds: one line per question (label,
x-values, y-values), plus the x-axis tick positions and y-axis limits
applied to the whole figure. -/
structure FLFigure where
  lines : List (String × List Nat × List ℚ)
  xticks : List Nat
  ylim : ℚ × ℚ
  deriving DecidableEq

/-- `plot_fl_metrics` from `utils.py`: each question's accuracies are
plotted against `range(1, len(metrics) + 1)`; after the loop,
`plt.xticks(epochs)` reads whichever `epochs` was last assigned, i.e. the
range of the last question iterated (`NameError` when the mapping is
empty), and `plt.ylim(0, 1)` fixes the y-axis. -/
def plot_fl_metrics (fl_metrics : List (String × List Metric)) :
    Except String FLFigure :=
  match fl_metrics.getLast? with
  | none => .error "NameError"
  | some last =>
    .ok { lines := fl_metrics.map
            (fun q => (q.1, List.range' 1 q.2.length, q.2.map (·.accuracy))),
          xticks := List.range' 1 last.2.length,
          ylim := (0, 1) }

/-- A datasite whose most recent code request is approved. -/
def siteApprovedLast : DatasiteClient :=
  ⟨[⟨false, "submitted"⟩, ⟨true, "approved"⟩]⟩

/-- A datasite whose most recent code request is still pending. -/
def sitePendingLast : DatasiteClient :=
  ⟨[⟨false, "pending"⟩]⟩

/-- A datasite with no submitted code requests. -/
def siteEmpty : DatasiteClient := ⟨[]⟩

/-- A sample confusion matrix. -/
def cmSample : ConfusionMatrix := [[5, 1], [2, 7]]

/-- A mapping of exactly four named confusion matrices. -/
def fourCms : List (String × ConfusionMatrix) :=
  [("w", cmSample), ("x", cmSample), ("y", cmSample), ("z", cmSample)]

/-- A mapping of three named confusion matrices. -/
def threeCms : List (String × ConfusionMatrix) :=
  [("w", cmSample), ("x", cmSample), ("y", cmSample)]

/-- Two questions with different epoch counts (three epochs, then two). -/
def flDemo : List (String × List Metric) :=
  [("q1", [⟨1/2⟩, ⟨3/5⟩, ⟨7/10⟩]), ("q2", [⟨2/5⟩, ⟨1/2⟩])]

theorem replaceChar_empty (c : Char) (l : List Char) :
    replaceChar c [] l = l.filter (fun x => x != c) := by
  induction l with
  | nil => rfl
  | cons x xs ih =>
    by_cases hx : x = c <;> simp [replaceChar, hx, ih]

theorem replaceChar_single (c d : Char) (l : List Char) :
    replaceChar c [d] l = l.map (fun x => if x = c then d else x) := by
  induction l with
  | nil => rfl
  | cons x xs ih =>
    by_cases hx : x = c <;> simp [replaceChar, hx, ih]

/-- Claim C1, counterexample: the filename for `"My Site.One"` is
`"my_siteone_model.jbl"` (the space becomes an underscore), not the
`"mysiteone_model.jbl"` the claim states. -/
theorem fedrf_C1_counterexample :
    get_model_file "My Site.One" = "my_siteone_model.jbl" ∧
      get_model_file "My Site.One" ≠ "mysiteone_model.jbl" := by
  constructor <;> decide

/-- Claim C1, as amended: for every site name the canonical model filename
is the deterministic normalization that removes all dots, replaces each
space by an underscore and lowercases the result, followed by the fixed
suffix; in particular the filename for `"My Site.One"` is
`"my_siteone_model.jbl"`. -/
theorem fedrf_C1 :
    (∀ name : String, get_model_file name = modelFilename_spec name) ∧
      get_model_file "My Site.One" = "my_siteone_model.jbl" := by
  constructor
  · intro name
    simp [get_model_file, modelFilename_spec, replaceChar_empty, replaceChar_single]
  · decide

/-- Claim C2: the site-name-to-filename function is not injective: two
distinct site names can map to the same model filename, so their on-disk
files collide. -/
theorem fedrf_C2 :
    ∃ a b : String, a ≠ b ∧ get_model_file a = get_model_file b :=
  ⟨"a b", "a_b", by decide, by decide⟩

/-- Claim C3: whenever every site in the registry has at least one
submitted request, `requests_accepted` returns (purely, with no mutation
of the registry) the list, in registry iteration order, of whether each
site's most recent request is approved. -/
theorem fedrf_C3 (sites : Datasites) (h : ∀ p ∈ sites, p.2.code ≠ []) :
    requests_accepted sites =
      .ok (sites.map (fun p => (p.2.code.getLast?.map (·.approved)).getD false)) := by
  induction sites with
  | nil => rfl
  | cons p rest ih =>
    have hp : p.2.code ≠ [] := h p (List.mem_cons_self ..)
    obtain ⟨r, hr⟩ : ∃ r, p.2.code.getLast? = some r := by
      cases hl : p.2.code.getLast? with
      | none => exact absurd (List.getLast?_eq_none_iff.mp hl) hp
      | some r => exact ⟨r, rfl⟩
    have ih2 := ih (fun q hq => h q (List.mem_cons_of_mem _ hq))
    simp [requests_accepted, hr, ih2]

/-- Claim C3, witness: on a two-site registry whose first site's last
request is approved and whose second site's last request is pending, the
result is `[true, false]`. -/
theorem fedrf_C3_witness :
    requests_accepted [("A", siteApprovedLast), ("B", sitePendingLast)] =
      .ok [true, false] :=
  (fedrf_C3 [("A", siteApprovedLast), ("B", sitePendingLast)] (by decide)).trans
    (by rfl)

theorem setLastApproved_eq_none_iff (l : List RequestStatus) :
    setLastApproved l = none ↔ l = [] := by
  induction l with
  | nil => simp [setLastApproved]
  | cons r rs ih =>
    cases rs with
    | nil => simp [setLastApproved]
    | cons r2 rs2 =>
      cases hs : setLastApproved (r2 :: rs2) with
      | none => exact absurd (ih.mp hs) (by simp)
      | some c => simp [setLastApproved, hs]

/-- Claim C4: if some site in the registry has no submitted requests,
both `approve_last_code_requests` and `check_status_last_code_requests`
surface the propagated `IndexError` from `code[-1]`; neither skips the
site or returns normally. -/
theorem fedrf_C4 (sites : Datasites) (h : ∃ p ∈ sites, p.2.code = []) :
    approve_last_code_requests sites = .error "IndexError" ∧
      check_status_last_code_requests sites = .error "IndexError" := by
  induction sites with
  | nil => simp at h
  | cons q rest ih =>
    obtain ⟨p, hp, he⟩ := h
    rcases List.mem_cons.mp hp with hq | hq
    · subst hq
      constructor
      · simp [approve_last_code_requests, he, setLastApproved]
      · simp [check_status_last_code_requests, he]
    · have ih2 := ih ⟨p, hq, he⟩
      constructor
      · cases hs : setLastApproved q.2.code with
        | none => simp [approve_last_code_requests, hs]
        | some c => simp [approve_last_code_requests, hs, ih2.1]
      · cases hl : q.2.code.getLast? with
        | none => simp [check_status_last_code_requests, hl]
        | some r => simp [check_status_last_code_requests, hl, ih2.2]

/-- Claim C4, witness: on a registry whose second site has no requests,
both functions return the propagated `IndexError`. -/
theorem fedrf_C4_witness :
    approve_last_code_requests [("A", siteApprovedLast), ("B", siteEmpty)] =
        .error "IndexError" ∧
      check_status_last_code_requests [("A", siteApprovedLast), ("B", siteEmpty)] =
        .error "IndexError" :=
  fedrf_C4 [("A", siteApprovedLast), ("B", siteEmpty)] (by decide)

/-- A filesystem in which the default models directory already exists. -/
def fs0 : FileSystem := ⟨["./models"], []⟩

/-- A buffer whose read position was left in the middle of its contents. -/
def buf0 : ByteBuffer := ⟨[1, 2, 3], 2⟩

/-- Claim C5: `dump_model` ensures the target directory exists (creating
it if absent, leaving the filesystem directories untouched if it already
exists), writes the buffer's bytes to the canonical path silently
overwriting any file there, and returns a confirmation string containing
that path. -/
theorem fedrf_C5 (name : String) (buf : ByteBuffer) (root : String) (fs : FileSystem) :
    root ∈ (dump_model name buf root fs).1.dirs ∧
      (root ∈ fs.dirs → (dump_model name buf root fs).1.dirs = fs.dirs) ∧
      fsRead (dump_model name buf root fs).1 (root ++ "/" ++ get_model_file name) =
        some (getbuffer buf) ∧
      (dump_model name buf root fs).2.1 =
        "Model saved in " ++ (root ++ "/" ++ get_model_file name) := by
  refine ⟨?_, ?_, ?_, rfl⟩
  · by_cases hd : root ∈ fs.dirs <;>
      simp [dump_model, fsWrite, mkdirExistOk, hd]
  · intro hd
    simp [dump_model, fsWrite, mkdirExistOk, hd]
  · simp [dump_model, fsWrite, fsRead, mkdirExistOk, getbuffer]

/-- Claim C5, witness: dumping a buffer into an existing `./models`
directory leaves the directories unchanged, stores the bytes at the
canonical path, and reports that path. -/
theorem fedrf_C5_witness :
    "./models" ∈ (dump_model "A" buf0 "./models" fs0).1.dirs ∧
      (dump_model "A" buf0 "./models" fs0).1.dirs = fs0.dirs ∧
      fsRead (dump_model "A" buf0 "./models" fs0).1
          ("./models" ++ "/" ++ get_model_file "A") = some (getbuffer buf0) ∧
      (dump_model "A" buf0 "./models" fs0).2.1 =
        "Model saved in " ++ ("./models" ++ "/" ++ get_model_file "A") := by
  have h := fedrf_C5 "A" buf0 "./models" fs0
  exact ⟨h.1, h.2.1 (by decide), h.2.2.1, h.2.2.2⟩

/-- Claim C6: serialization round-trips: deserializing the buffer produced
by serializing an estimator yields an estimator with the same predictions
on any input, and `dump_model` followed by `load_model` on the same path
recovers the estimator. -/
theorem fedrf_C6 (m : BaseEstimator) (x : List Nat) (name root : String)
    (fs : FileSystem) :
    predict (load_model_from_buffer (serialize m)).1 x = predict m x ∧
      load_model (dump_model name (serialize m) root fs).1
        (root ++ "/" ++ get_model_file name) = some m := by
  constructor
  · simp [load_model_from_buffer, serialize, seek, bufWrite, readToEnd,
      joblibDumpBytes, joblibLoadBytes]
  · simp [load_model, dump_model, fsWrite, fsRead, mkdirExistOk, getbuffer,
      serialize, seek, bufWrite, joblibDumpBytes, joblibLoadBytes]

/-- Claim C7, counterexample: on a mapping of three matrices the function
returns normally with a partial grid (the first three cells of the 2x2
grid), rather than raising or failing. -/
theorem fedrf_C7_counterexample :
    plot_all_confusion_matrices threeCms =
      .ok ⟨[((0, 0), "w"), ((0, 1), "x"), ((1, 0), "y")]⟩ := rfl

/-- Claim C7, as amended: on any non-empty mapping the function returns a
figure that places the matrices, in order, into the leading cells of the
2x2 grid, drawing `min 4 n` subplots (so exactly four matrices fill all
four cells, three silently render a partial grid, and extras beyond four
are silently dropped); only an empty mapping fails, with a `NameError`. -/
theorem fedrf_C7 (cms : List (String × ConfusionMatrix)) :
    (cms ≠ [] → ∃ f, plot_all_confusion_matrices cms = .ok f ∧
      f.cells = (gridCoords.zip cms).map (fun e => (e.1, e.2.1)) ∧
      f.cells.length = min 4 cms.length) ∧
      (cms = [] → plot_all_confusion_matrices cms = .error "NameError") := by
  cases cms with
  | nil => exact ⟨fun h => absurd rfl h, fun _ => rfl⟩
  | cons q rest =>
    refine ⟨fun _ => ⟨⟨(gridCoords.zip (q :: rest)).map (fun e => (e.1, e.2.1))⟩,
      ?_, rfl, ?_⟩, fun h => absurd h (by simp)⟩
    · simp [plot_all_confusion_matrices, gridCoords]
    · simp [gridCoords]
      omega

/-- Claim C7, witness: a mapping of exactly four matrices yields a figure
whose four subplots fill the 2x2 grid. -/
theorem fedrf_C7_witness :
    ∃ f, plot_all_confusion_matrices fourCms = .ok f ∧
      f.cells = (gridCoords.zip fourCms).map (fun e => (e.1, e.2.1)) ∧
      f.cells.length = min 4 fourCms.length :=
  (fedrf_C7 fourCms).1 (by decide)

/-- Claim C8: on any non-empty metrics mapping, each question's accuracy
series is plotted against epoch indices `1..len(series)`, the figure-wide
x-axis ticks are `1..N` for `N` the length of the last question's series
(not a per-series range), and the y-axis limits are fixed to `[0, 1]`. -/
theorem fedrf_C8 (fl : List (String × List Metric)) (h : fl ≠ []) :
    ∃ last, fl.getLast? = some last ∧
      plot_fl_metrics fl = .ok
        { lines := fl.map
            (fun q => (q.1, List.range' 1 q.2.length, q.2.map (·.accuracy))),
          xticks := List.range' 1 last.2.length,
          ylim := (0, 1) } := by
  obtain ⟨last, hl⟩ : ∃ l, fl.getLast? = some l := by
    cases hg : fl.getLast? with
    | none => exact absurd (List.getLast?_eq_none_iff.mp hg) h
    | some l => exact ⟨l, rfl⟩
  exact ⟨last, hl, by simp [plot_fl_metrics, hl]⟩

/-- Claim C8, witness: with a first question of three epochs and a last
question of two, every line keeps its own epoch range but the figure's
x-ticks follow the last question (`[1, 2]`), and the y-limits are
`(0, 1)`. -/
theorem fedrf_C8_witness :
    (∃ last, flDemo.getLast? = some last ∧
      plot_fl_metrics flDemo = .ok
        { lines := flDemo.map
            (fun q => (q.1, List.range' 1 q.2.length, q.2.map (·.accuracy))),
          xticks := List.range' 1 last.2.length,
          ylim := (0, 1) }) ∧
      plot_fl_metrics flDemo = .ok
        { lines := [("q1", [1, 2, 3], [1/2, 3/5, 7/10]),
                    ("q2", [1, 2], [2/5, 1/2])],
          xticks := [1, 2],
          ylim := (0, 1) } :=
  ⟨fedrf_C8 flDemo (by decide), by rfl⟩

/-- Claim C9: `load_model_from_buffer` is independent of the buffer's
current read position: it agrees with itself on the rewound buffer, two
successive calls on the same buffer return equal estimators, and any two
positions over the same contents load the same estimator. -/
theorem fedrf_C9 (b : ByteBuffer) :
    load_model_from_buffer b = load_model_from_buffer (seek b 0) ∧
      (load_model_from_buffer (load_model_from_buffer b).2).1 =
        (load_model_from_buffer b).1 ∧
      ∀ p q : Nat, (load_model_from_buffer ⟨b.data, p⟩).1 =
        (load_model_from_buffer ⟨b.data, q⟩).1 := by
  refine ⟨rfl, ?_, fun p q => rfl⟩
  simp [load_model_from_buffer, seek, readToEnd]

/-- Claim C10: `dump_model` writes the buffer's entire underlying contents
(via `getbuffer`) whatever the buffer's read position — the stored file
and the whole resulting filesystem do not depend on the position — and the
buffer it hands back is exactly the one passed in, position and contents
unchanged. -/
theorem fedrf_C10 (name : String) (d : List Nat) (p q : Nat) (root : String)
    (fs : FileSystem) :
    fsRead (dump_model name ⟨d, p⟩ root fs).1 (root ++ "/" ++ get_model_file name) =
        some d ∧
      (dump_model name ⟨d, p⟩ root fs).1 = (dump_model name ⟨d, q⟩ root fs).1 ∧
      (dump_model name ⟨d, p⟩ root fs).2.2 = ⟨d, p⟩ := by
  refine ⟨?_, rfl, rfl⟩
  simp [dump_model, fsWrite, fsRead, mkdirExistOk, getbuffer]

end FedRF
